import Mathlib

/-!
Verification of the `verif` input layer (src/verif/input.py): format
auto-detection, the legacy COMPS threshold/quantile naming codec, and the
text decoder's sparse-to-dense assembly, modelled as executable Lean
definitions.

Numeric model: Python floats are modelled as `Option ℚ` where `none` stands
for IEEE NaN (`np.nan`); every value the claims evaluate is an exact decimal,
so rational arithmetic is faithful.  Python dictionaries are association
lists with overwrite-on-insert.  Python `set` objects are modelled by their
membership (accumulated as first-occurrence lists); the order that
`list(someSet)` produces is passed around as an explicit enumeration
parameter, because CPython's set iteration order is hash-table order, not
insertion order.
-/

namespace Verif

/-- A Python float: `none` models `np.nan`, `some q` an ordinary value.
`np.nan` is a single shared object in the source, so CPython's
identity-based container lookups treat it as equal to itself, which
structural equality on `Option ℚ` mirrors. -/
abbrev Val := Option ℚ

/-- Association-list lookup, modelling a Python dict read. -/
def alookup [DecidableEq κ] : List (κ × α) → κ → Option α
  | [], _ => none
  | (k, v) :: rest, key => if k = key then some v else alookup rest key

/-- Association-list overwrite-or-append, modelling a Python dict write. -/
def ainsert [DecidableEq κ] : List (κ × α) → κ → α → List (κ × α)
  | [], key, val => [(key, val)]
  | (k, v) :: rest, key, val =>
    if k = key then (k, val) :: rest else (k, v) :: ainsert rest key val

/-- Python `set.add` modelled on membership contents, kept as a
first-occurrence list. -/
def addFS [DecidableEq α] (l : List α) (a : α) : List α :=
  if a ∈ l then l else l ++ [a]

/-! ### A partial model of Python `float(str)` (plain decimal grammar) -/

def digitVal (c : Char) : Option ℕ :=
  if '0' ≤ c ∧ c ≤ '9' then some (c.toNat - '0'.toNat) else none

def digitsToNat : List Char → ℕ → Option ℕ
  | [], acc => some acc
  | c :: rest, acc =>
    match digitVal c with
    | none => none
    | some d => digitsToNat rest (acc * 10 + d)

/-- Modelled from Python `float(s)` restricted to the plain decimal grammar
`[+-] digits [. digits]` with at least one digit.  The exponent, infinity,
`nan` and surrounding-whitespace forms never occur in the inputs this
development evaluates; they are treated as parse failures here. -/
def pfloat (s : String) : Option ℚ :=
  let cs := s.data
  let signAndRest : Bool × List Char :=
    match cs with
    | '-' :: rest => (true, rest)
    | '+' :: rest => (false, rest)
    | rest => (false, rest)
  let neg := signAndRest.1
  let body := signAndRest.2
  let ip := body.takeWhile (fun c => (digitVal c).isSome)
  let rest := body.dropWhile (fun c => (digitVal c).isSome)
  match rest with
  | [] =>
    if ip = [] then none
    else (digitsToNat ip 0).map (fun n => if neg then -(n : ℚ) else (n : ℚ))
  | '.' :: fp =>
    if ip = [] ∧ fp = [] then none
    else
      match digitsToNat ip 0, digitsToNat fp 0 with
      | some i, some f =>
        let q : ℚ := (i : ℚ) + (f : ℚ) / ((10 : ℚ) ^ fp.length)
        some (if neg then -q else q)
      | _, _ => none
  | _ => none

/-! ### Decimal formatting models for `"%g"` and `"%d"` -/

def natStr (n : ℕ) : String := ⟨Nat.toDigits 10 n⟩

def intStr (i : ℤ) : String :=
  if i < 0 then "-" ++ natStr i.natAbs else natStr i.natAbs

def padZeros (s : String) (k : ℕ) : String :=
  ⟨List.replicate (k - s.length) '0'⟩ ++ s

def pow10Exp (den : ℕ) : Option ℕ :=
  (List.range 64).find? (fun k => 10 ^ k % den == 0)

/-- Modelled from C `"%g"` formatting as the source uses it: for rationals
with a terminating decimal expansion inside the non-exponent, at most
six-significant-digit regime of `%g` (every value the encoder is evaluated
on here), `%g` prints the plain shortest decimal string, which this
computes.  The fractional part of such a minimal-exponent expansion never
ends in a zero, so no trailing-zero stripping is needed. -/
def fmtG (q : ℚ) : String :=
  if q.den = 1 then intStr q.num
  else
    match pow10Exp q.den with
    | none => "?"
    | some k =>
      let scaled := q.num.natAbs * 10 ^ k / q.den
      let ipart := scaled / 10 ^ k
      let fpart := scaled % 10 ^ k
      (if q.num < 0 then "-" else "") ++ natStr ipart ++ "." ++ padZeros (natStr fpart) k

/-- Truncation toward zero, modelling C `"%d"` formatting of a float. -/
def truncQ (q : ℚ) : ℤ := if q < 0 then -(Rat.floor (-q)) else Rat.floor q

/-- Modelled from the spec: the string-is-numeric collaborator utility
`verif.util.is_number` (not under src/), "return True iff float(s)
succeeds" — success of the float-parse model. -/
def is_number (s : String) : Bool := (pfloat s).isSome

/-! ### The legacy (COMPS) naming codec, `src/verif/input.py` lines 200-251 -/

namespace Comps

/-- `Comps._verif_to_comps_threshold`: verif threshold to COMPS token. -/
def verif_to_comps_threshold (threshold : ℚ) : String :=
  let variable_name :=
    if threshold = 0 then "0"
    else if |threshold| < 1 then (fmtG threshold).replace "." ""
    else intStr (truncQ threshold)
  "p" ++ variable_name.replace "-" "m"

/-- `Comps._comps_to_verif_threshold`: COMPS token to verif threshold.
`none` models Python `None`.  (For the empty string Python would raise on
`variable_name[0]`; netcdf variable names are never empty, and this model
returns `none` there.) -/
def comps_to_verif_threshold (variable_name : String) : Option ℚ :=
  if 2 ≤ variable_name.length ∨ variable_name.take 1 = "p" then
    let v1 := variable_name.replace "m" "-"
    let v2 := v1.replace "p0" "0."
    let v3 := v2.replace "p" ""
    if is_number v3 then pfloat v3 else none
  else none

/-- `Comps._verif_to_comps_quantile`: verif quantile to COMPS token;
`none` models the early `return None` for out-of-range quantiles. -/
def verif_to_comps_quantile (quantile : ℚ) : Option String :=
  if quantile < 0 ∨ 1 < quantile then none
  else
    some ("q" ++ (if quantile = 0 then "0" else (fmtG (quantile * 100)).replace "." ""))

/-- `Comps._comps_to_verif_quantile`: COMPS token to verif quantile. -/
def comps_to_verif_quantile (variable_name : String) : Option ℚ :=
  if 2 ≤ variable_name.length ∨ variable_name.take 1 = "q" then
    let v1 := variable_name.replace "q0" "0."
    let v2 := v1.replace "q" ""
    if is_number v2 then
      (pfloat v2).bind (fun x =>
        let temp := x / 100
        if 0 ≤ temp ∧ temp ≤ 1 then some temp else none)
    else none
  else none

end Comps

/-! ### NetCDF file abstraction and the three validity predicates -/

/-- A readable NetCDF file, abstracted to its global attributes (the only
part the validity predicates consult). -/
structure NcFile where
  attrs : List (String × String)
deriving DecidableEq

/-- Python `hasattr(file, name)` on the netcdf handle. -/
def hasattrB (f : NcFile) (name : String) : Bool := (alookup f.attrs name).isSome

/-- Python `file.<name>` attribute access: `none` models the AttributeError
raise. -/
def attrVal (f : NcFile) (name : String) : Option String := alookup f.attrs name

/-- `NetcdfCf.is_valid` (lines 269-279): the open result is `none` when
`netcdf(filename)` raises (then the except branch returns False); otherwise
`valid = hasattr(file, "Conventions") and file.Conventions == "verif_1.0.0"`
is returned. -/
def NetcdfCf.is_valid (nc : Option NcFile) : Bool :=
  match nc with
  | none => false
  | some f =>
    if hasattrB f "Conventions" then
      match attrVal f "Conventions" with
      | some v => v == "verif_1.0.0"
      | none => false
    else false

/-- `Comps.is_valid` (lines 99-111).  The try block opens the file (`none`
models an open failure, caught: return False), tests
`hasattr(file, "Convensions") and file.Convension == "comps"` — note the
two different spellings: when "Convensions" exists but "Convension" does
not, the attribute access raises and the except branch returns False —
and then, whatever `valid` ended up as, executes `return True`. -/
def Comps.is_valid (nc : Option NcFile) : Bool :=
  match nc with
  | none => false
  | some f =>
    if hasattrB f "Convensions" then
      match attrVal f "Convension" with
      | some _ => true   -- comparison result goes into the unused local `valid`
      | none => false    -- AttributeError, caught by the bare except
    else true

/-! ### The format dispatcher `get_input` (lines 14-25) -/

/-- A path as the dispatcher sees it: whether it exists, and what
`netcdf(path, "r")` yields (`none` when opening raises). -/
structure FileModel where
  pathExists : Bool
  nc : Option NcFile
deriving DecidableEq

/-- `Text.is_valid` (lines 562-564): unconditionally True. -/
def Text.is_valid (_fm : FileModel) : Bool := true

inductive DecoderKind
  | netcdfCf
  | comps
  | text
deriving DecidableEq

inductive InputErr
  | fileNotFound
  | unrecognizedFormat
deriving DecidableEq

/-- `get_input` (lines 14-25): existence check, then the fixed
NetcdfCf / Comps / Text validity chain, then the unreachable final error. -/
def get_input (fm : FileModel) : Except InputErr DecoderKind :=
  if fm.pathExists = false then .error .fileNotFound
  else if NetcdfCf.is_valid fm.nc then .ok .netcdfCf
  else if Comps.is_valid fm.nc then .ok .comps
  else if Text.is_valid fm then .ok .text
  else .error .unrecognizedFormat

/-- The fixed probe order with each decoder's verdict, as a list. -/
def decoderProbes (fm : FileModel) : List (DecoderKind × Bool) :=
  [(.netcdfCf, NetcdfCf.is_valid fm.nc), (.comps, Comps.is_valid fm.nc),
   (.text, Text.is_valid fm)]

/-- The first decoder in probe order whose validity predicate accepts. -/
def firstAccepting (fm : FileModel) : Option DecoderKind :=
  ((decoderProbes fm).find? (fun p => p.2)).map (fun p => p.1)

/-! ### The text decoder, `Text.__init__` (lines 350-560) -/

/-- The collaborator record `verif.location.Location(id, lat, lon, elev)`
(not under src/); modelled from the spec as a plain identity record.  In
the text decoder the stored lat/lon/elev are never nan (missing ones are
defaulted to 0 before construction), while the id may be the unassigned
nan sentinel. -/
structure Location where
  id : Val
  lat : ℚ
  lon : ℚ
  elev : ℚ
deriving DecidableEq

/-- The sparse-table key `(date, offset, lat, lon, elev)` of line 473. -/
structure SKey where
  date : Val
  offset : Val
  lat : ℚ
  lon : ℚ
  elev : ℚ
deriving DecidableEq

/-- The probabilistic-column key `(date, offset, lat, lon, elev, level)` of
lines 483 and 488. -/
structure QKey where
  date : Val
  offset : Val
  lat : ℚ
  lon : ℚ
  elev : ℚ
  level : ℚ
deriving DecidableEq

def SKey.withLevel (k : SKey) (q : ℚ) : QKey :=
  ⟨k.date, k.offset, k.lat, k.lon, k.elev, q⟩

/-- The fatal ways `Text.__init__` can abort: the two `verif.util.error`
calls, plus the uncaught Python exceptions a load can raise. -/
inductive LoadErr
  | missingColumn (c : String)
  | arityMismatch
  | floatParse
  | keyError
  | indexError
deriving DecidableEq

/-- One line of the file, pre-split on whitespace: a line whose first
character is `#` carries the whitespace-split tokens of everything after
the marker; any other line carries its whitespace-split fields.  Python's
`str.split()` yields no empty tokens; theorems add that as a hypothesis
where a header token's first character is inspected. -/
inductive Line
  | comment (tokens : List String)
  | data (tokens : List String)
deriving DecidableEq

/-- The mutable state of the parsing loop of `Text.__init__`.
`conflictWarnings` counts the conflict warnings actually emitted at line
457 (the source sends them to `verif.util.warning`). -/
structure ParseState where
  varName : String
  units : String
  header : Option (List String)
  indices : List (String × ℕ)
  dates : List Val
  offsets : List Val
  locations : List Location
  quantiles : List ℚ
  thresholds : List ℚ
  locationInfo : List (Val × Location)
  shownConflictingWarning : Bool
  conflictWarnings : ℕ
  obs : List (SKey × Val)
  fcst : List (SKey × Val)
  pit : List (SKey × Val)
  x : List (QKey × Val)
  cdf : List (QKey × Val)
deriving DecidableEq

/-- Lines 350-383. -/
def initState : ParseState :=
  { varName := "Unknown", units := "Unknown units", header := none, indices := []
    dates := [], offsets := [], locations := [], quantiles := [], thresholds := []
    locationInfo := [], shownConflictingWarning := false, conflictWarnings := 0
    obs := [], fcst := [], pit := [], x := [], cdf := [] }

/-- `Text._clean` (lines 570-574): parse the field, canonicalize the -999
sentinel to nan. -/
def clean (value : String) : Except LoadErr Val :=
  match pfloat value with
  | none => .error .floatParse
  | some fvalue => .ok (if fvalue = -999 then none else some fvalue)

/-- `self._clean(row[i])` under Python list indexing. -/
def readNum (row : List String) (i : ℕ) : Except LoadErr Val :=
  match row.get? i with
  | none => .error .indexError
  | some s => clean s

/-- `if name in indices: v = self._clean(row[indices[name]])`, with the
stated default when the column is absent. -/
def colVal (indices : List (String × ℕ)) (row : List String) (name : String)
    (dflt : Val) : Except LoadErr Val :=
  match alookup indices name with
  | none => .ok dflt
  | some i => readNum row i

/-- `self._clean(row[indices[name]])` where the dict access itself may
raise KeyError. -/
def mandCol (indices : List (String × ℕ)) (row : List String) (name : String) :
    Except LoadErr Val :=
  match alookup indices name with
  | none => .error .keyError
  | some i => readNum row i

/-- `Text._get_quantile_fields` (lines 576-581): header tokens whose first
character is "q". -/
def get_quantile_fields (fields : List String) : List String :=
  fields.filter (fun att => att.startsWith "q")

/-- `Text._get_threshold_fields` (lines 583-588): header tokens whose first
character is "p", except the reserved "pit". -/
def get_threshold_fields (fields : List String) : List String :=
  fields.filter (fun att => att.startsWith "p" && att != "pit")

/-- Header parsing (lines 397-424): every branch of the attribute loop
stores `indices[att] = i` (the recognized names use `att` itself as the
key), then the required obs/fcst columns are checked, in that order. -/
def parseHeader (row : List String) : Except LoadErr (List (String × ℕ)) :=
  let indices := row.enum.foldl (fun d p => ainsert d p.2 p.1) []
  if (alookup indices "obs").isNone then .error (.missingColumn "obs")
  else if (alookup indices "fcst").isNone then .error (.missingColumn "fcst")
  else .ok indices

/-- The per-row coordinate fields of lines 429-449, in source evaluation
order: date and offset default to 0 without their columns, the id defaults
to np.nan, and the row-local lat/lon/elev default to np.nan. -/
structure RowC where
  date : Val
  offset : Val
  id : Val
  lat : Val
  lon : Val
  elev : Val
deriving DecidableEq

def rowCoords (indices : List (String × ℕ)) (row : List String) :
    Except LoadErr RowC :=
  match colVal indices row "date" (some 0) with
  | .error e => .error e
  | .ok date =>
    match colVal indices row "offset" (some 0) with
    | .error e => .error e
    | .ok offset =>
      match colVal indices row "id" none with
      | .error e => .error e
      | .ok id =>
        match colVal indices row "lat" none with
        | .error e => .error e
        | .ok lat =>
          match colVal indices row "lon" none with
          | .error e => .error e
          | .ok lon =>
            match colVal indices row "elev" none with
            | .error e => .error e
            | .ok elev => .ok ⟨date, offset, id, lat, lon, elev⟩

/-- The conflict test of line 455: a non-missing row coordinate differing
from the registered identity by more than 0.0001 degrees (lat/lon) or
0.001 (elevation). -/
def conflictB (loc : Location) (cLat cLon cElev : Val) : Bool :=
  (match cLat with | none => false | some v => decide (|v - loc.lat| > 1/10000)) ||
  (match cLon with | none => false | some v => decide (|v - loc.lon| > 1/10000)) ||
  (match cElev with | none => false | some v => decide (|v - loc.elev| > 1/1000))

/-- Lines 450-472: reuse a previously registered non-nan identity (emitting
a conflict warning only if none was shown yet), or register a new Location
built from the row (missing coordinates defaulting to 0).  Returns the
identity record whose lat/lon/elev the row's values are keyed under
(lines 470-472 re-read it from `locationInfo[id]`). -/
def resolveLoc (st : ParseState) (c : RowC) : ParseState × Location :=
  match c.id, alookup st.locationInfo c.id with
  | some _, some loc =>
    (if !st.shownConflictingWarning && conflictB loc c.lat c.lon c.elev then
      { st with shownConflictingWarning := true
                conflictWarnings := st.conflictWarnings + 1 }
     else st, loc)
  | _, _ =>
    let loc : Location := ⟨c.id, c.lat.getD 0, c.lon.getD 0, c.elev.getD 0⟩
    ({ st with locations := st.locations ++ [loc]
               locationInfo := ainsert st.locationInfo c.id loc }, loc)

/-- Lines 478-479: the optional PIT column. -/
def storePit (st : ParseState) (indices : List (String × ℕ)) (row : List String)
    (key : SKey) : Except LoadErr ParseState :=
  match alookup indices "pit" with
  | none => .ok st
  | some i =>
    match readNum row i with
    | .error e => .error e
    | .ok v => .ok { st with pit := ainsert st.pit key v }

/-- Lines 480-484: the quantile-column loop over one data row; the level is
`float(field[1:])` of the header token, with no range check and no sentinel
cleaning. -/
def storeQuantiles (indices : List (String × ℕ)) (row : List String) (key : SKey) :
    List String → ParseState → Except LoadErr ParseState
  | [], st => .ok st
  | field :: rest, st =>
    match pfloat (field.drop 1) with
    | none => .error .floatParse
    | some quantile =>
      match mandCol indices row field with
      | .error e => .error e
      | .ok v =>
        storeQuantiles indices row key rest
          { st with quantiles := addFS st.quantiles quantile
                    x := ainsert st.x (key.withLevel quantile) v }

/-- Lines 485-489: the threshold-column loop over one data row. -/
def storeThresholds (indices : List (String × ℕ)) (row : List String) (key : SKey) :
    List String → ParseState → Except LoadErr ParseState
  | [], st => .ok st
  | field :: rest, st =>
    match pfloat (field.drop 1) with
    | none => .error .floatParse
    | some threshold =>
      match mandCol indices row field with
      | .error e => .error e
      | .ok v =>
        storeThresholds indices row key rest
          { st with thresholds := addFS st.thresholds threshold
                    cdf := ainsert st.cdf (key.withLevel threshold) v }

/-- Line 426 `len(row) is not len(header)`: CPython compares the two length
objects by identity; int objects are identical exactly when they are equal
and inside the interned small-int range (-5..256), so equal lengths above
256 still satisfy `is not`. -/
def pyIntIsNot (a b : ℕ) : Bool := !(a == b && a ≤ 256)

/-- The date/offset set insertions of lines 431 and 434. -/
def rowSt1 (st : ParseState) (c : RowC) : ParseState :=
  { st with dates := addFS st.dates c.date
            offsets := addFS st.offsets c.offset }

/-- The identity record a data row's values are keyed under: the result of
lines 450-472 applied to the state the row meets. -/
def rowLoc (st : ParseState) (c : RowC) : Location :=
  (resolveLoc (rowSt1 st c) c).2

/-- The row's sparse-table key (line 473). -/
def rowKey (st : ParseState) (c : RowC) : SKey :=
  ⟨c.date, c.offset, (rowLoc st c).lat, (rowLoc st c).lon, (rowLoc st c).elev⟩

/-- The state after lines 431-472 (set insertions and identity
resolution). -/
def rowSt2 (st : ParseState) (c : RowC) : ParseState :=
  (resolveLoc (rowSt1 st c) c).1

/-- The state after the obs/fcst sparse-table writes of lines 474-475. -/
def rowSt3 (st : ParseState) (c : RowC) (obsv fcstv : Val) : ParseState :=
  { rowSt2 st c with obs := ainsert (rowSt2 st c).obs (rowKey st c) obsv
                     fcst := ainsert (rowSt2 st c).fcst (rowKey st c) fcstv }

/-- Lines 425-489: one data row after the header.  The pure state updates
(the set insertions of lines 431/434, the identity resolution of lines
440-472, and the obs/fcst table writes of lines 474-475) are factored into
`rowSt3`; the fallible field parses happen in source order (date, offset,
id, lat, lon, elev inside `rowCoords`, then obs, fcst, pit, the quantile
columns, the threshold columns). -/
def processRow (st : ParseState) (header : List String)
    (indices : List (String × ℕ)) (row : List String) :
    Except LoadErr ParseState :=
  if pyIntIsNot row.length header.length then .error .arityMismatch
  else
    match rowCoords indices row with
    | .error e => .error e
    | .ok c =>
      match mandCol indices row "obs" with
      | .error e => .error e
      | .ok obsv =>
        match mandCol indices row "fcst" with
        | .error e => .error e
        | .ok fcstv =>
          match storePit (rowSt3 st c obsv fcstv) indices row (rowKey st c) with
          | .error e => .error e
          | .ok st4 =>
            match storeQuantiles indices row (rowKey st c)
                (get_quantile_fields header) st4 with
            | .error e => .error e
            | .ok st5 =>
              storeThresholds indices row (rowKey st c)
                (get_threshold_fields header) st5

/-- Lines 385-489: one line of the file.  Comment lines may set the
variable name or units (an empty comment or a bare `#units:` raises
IndexError); the first non-comment line becomes the header; every later
non-comment line is a data row. -/
def processLine (st : ParseState) (l : Line) : Except LoadErr ParseState :=
  match l with
  | .comment curr =>
    match curr with
    | [] => .error .indexError
    | c0 :: rest =>
      if c0 = "variable:" then .ok { st with varName := String.intercalate " " rest }
      else if c0 = "units:" then
        match rest with
        | [] => .error .indexError
        | u :: _ => .ok { st with units := u }
      else .ok st
  | .data row =>
    match st.header with
    | none =>
      match parseHeader row with
      | .error e => .error e
      | .ok indices => .ok { st with header := some row, indices := indices }
    | some header => processRow st header st.indices row

def runLines : ParseState → List Line → Except LoadErr ParseState
  | st, [] => .ok st
  | st, l :: rest =>
    match processLine st l with
    | .error e => .error e
    | .ok st2 => runLines st2 rest

/-- The full streaming pass of `Text.__init__` (lines 385-491). -/
def textParse (lines : List Line) : Except LoadErr ParseState :=
  runLines initState lines

/-! ### Dense assembly (lines 493-560) -/

/-- The key re-derived for a coordinate cell (line 521). -/
def cellKey (date off : Val) (loc : Location) : SKey :=
  ⟨date, off, loc.lat, loc.lon, loc.elev⟩

/-- Lines 505-527: a dense 3-D array allocated full of nan and filled by
sparse lookup; each cell is visited once, so it equals its lookup, with
absence leaving nan. -/
def build3 (dict : List (SKey × Val)) (ds os : List Val) (ls : List Location) :
    List (List (List Val)) :=
  ds.map fun date => os.map fun off => ls.map fun loc =>
    (alookup dict (cellKey date off loc)).join

/-- Lines 509-537 for the 4-D threshold/quantile score arrays. -/
def build4 (dict : List (QKey × Val)) (ds os : List Val) (ls : List Location)
    (levels : List ℚ) : List (List (List (List Val))) :=
  ds.map fun date => os.map fun off => ls.map fun loc => levels.map fun lev =>
    (alookup dict ((cellKey date off loc).withLevel lev)).join

/-- Lines 539-548: the maximum assigned id, nan while only nan ids were
seen (nan never wins a `>` comparison). -/
def maxLocationId (ls : List Location) : Val :=
  ls.foldl (fun acc loc =>
    match acc with
    | none => loc.id
    | some m =>
      match loc.id with
      | none => some m
      | some i => if i > m then some i else some m) none

/-- Lines 550-553: give each still-unassigned location the next counter
value, in the traversal order of the frozen location list. -/
def assignIds : List Location → ℚ → List Location
  | [], _ => []
  | loc :: rest, counter =>
    match loc.id with
    | none => { loc with id := some counter } :: assignIds rest (counter + 1)
    | some _ => loc :: assignIds rest counter

/-- The canonical Input snapshot the loaded decoder exposes. -/
structure Snapshot where
  dates : List Val
  offsets : List Val
  locations : List Location
  thresholds : List ℚ
  quantiles : List ℚ
  obs : List (List (List Val))
  deterministic : List (List (List Val))
  pit : Option (List (List (List Val)))
  threshold_scores : List (List (List (List Val)))
  quantile_scores : List (List (List (List Val)))
deriving DecidableEq

/-- Lines 493-560, given the enumeration each of the five `list(someSet)`
calls produced.  CPython materializes a set in hash-table order, so the
orders are parameters; theorems assume only that each enumerates the
accumulated membership without duplicates (`IsEnum`). -/
def assemble (st : ParseState) (ds os : List Val) (ls : List Location)
    (qs ts : List ℚ) : Snapshot :=
  { dates := ds
    offsets := os
    locations := assignIds ls (match maxLocationId ls with | none => 0 | some m => m + 1)
    thresholds := ts
    quantiles := qs
    obs := build3 st.obs ds os ls
    deterministic := build3 st.fcst ds os ls
    pit := if st.pit.length ≠ 0 then some (build3 st.pit ds os ls) else none
    threshold_scores := build4 st.cdf ds os ls ts
    quantile_scores := build4 st.x ds os ls qs }

/-- A legitimate result of `list(someSet)`: CPython iterates each stored
element exactly once, in hash-table order, so the produced list is some
permutation of the accumulated elements.  (For the set of Location
objects, value-equal objects are distinct set members, so the accumulated
list may hold repeated values; a permutation is still exactly what
iteration yields.) -/
def IsEnum [DecidableEq α] (orig out : List α) : Prop := orig.Perm out

instance [DecidableEq α] (orig out : List α) : Decidable (IsEnum orig out) := by
  unfold IsEnum
  infer_instance

def parseOut (lines : List Line) : Option ParseState := (textParse lines).toOption

/-- The fatal error a parse ends in, if any. -/
def parseErr (lines : List Line) : Option LoadErr :=
  match textParse lines with
  | .error e => some e
  | .ok _ => none

def loadSnap (lines : List Line) (ds os : List Val) (ls : List Location)
    (qs ts : List ℚ) : Option Snapshot :=
  (parseOut lines).map (fun st => assemble st ds os ls qs ts)

/-- All five enumerations are valid freezes of the parse's sets. -/
def enumsOk (lines : List Line) (ds os : List Val) (ls : List Location)
    (qs ts : List ℚ) : Bool :=
  match parseOut lines with
  | none => false
  | some st =>
    decide (IsEnum st.dates ds) && decide (IsEnum st.offsets os) &&
    decide (IsEnum st.locations ls) && decide (IsEnum st.quantiles qs) &&
    decide (IsEnum st.thresholds ts)

/-- All-quantifier over an optional value. -/
def optAll (o : Option α) (p : α → Prop) : Prop := ∀ a, o = some a → p a

/-- CPython 2.7 iterates a `set` in hash-table order.  For a set of fewer
than five nonnegative integral floats (initial table size 8, so no resize)
whose values have distinct residues mod 8 (so no probe collisions), the
element with hash `h` — the integer value, for an integral float — sits in
slot `h mod 8`, and iteration visits slots in ascending order.  This
computes `list(s)` for exactly that case, `none` outside it. -/
def cpySetList (elems : List Val) : Option (List Val) :=
  match elems.mapM id with
  | none => none
  | some qs =>
    if qs.length < 5 ∧ (∀ q ∈ qs, q.den = 1 ∧ 0 ≤ q.num) ∧
        qs.Pairwise (fun a b => a.num % 8 ≠ b.num % 8) then
      some (((List.range 8).filterMap
        (fun s => qs.find? (fun q => q.num % 8 == (s : ℤ)))).map some)
    else none

/-! ### Derived per-row views used by the theorems -/

/-- Whether processing this row emits the lines 454-458 conflict warning:
only a previously registered non-nan id, with a tolerance-violating row
coordinate, and only while no warning was shown yet. -/
def warnCond (st : ParseState) (c : RowC) : Bool :=
  match c.id, alookup st.locationInfo c.id with
  | some _, some loc => !st.shownConflictingWarning && conflictB loc c.lat c.lon c.elev
  | _, _ => false

/-- The parse-loop invariant: the accumulated sets are duplicate-free and
the warning counter mirrors the shown-flag. -/
def StInv (st : ParseState) : Prop :=
  st.dates.Nodup ∧ st.offsets.Nodup ∧ st.quantiles.Nodup ∧ st.thresholds.Nodup ∧
  st.conflictWarnings = (if st.shownConflictingWarning then 1 else 0)

/-! ### Concrete inputs the individual claims are evaluated on -/

/-- Two rows with different location ids but identical lat/lon/elev: the
sparse keys coincide, so the cells of both locations alias. -/
def c4lines : List Line :=
  [.data ["date", "offset", "id", "lat", "lon", "elev", "obs", "fcst"],
   .data ["1", "0", "1", "1", "2", "3", "5", "9"],
   .data ["2", "0", "2", "1", "2", "3", "7", "9"]]

def c4locA : Location := ⟨some 1, 1, 2, 3⟩

def c4locB : Location := ⟨some 2, 1, 2, 3⟩

/-- A text file whose header declares a quantile column "q30". -/
def c5lines : List Line :=
  [.data ["date", "offset", "obs", "fcst", "q30"],
   .data ["1", "0", "2", "3", "0.5"]]

/-- Two rows whose offsets appear in the order 1, 0. -/
def c7lines : List Line :=
  [.data ["date", "offset", "obs", "fcst"],
   .data ["1", "1", "5", "6"],
   .data ["1", "0", "7", "8"]]

def c7locs : List Location := [⟨none, 0, 0, 0⟩, ⟨none, 0, 0, 0⟩]

/-- Three successive rows conflicting with the registered identity of
id 7 (lat 1): lats 10, 20, 30 all differ by far more than the tolerance. -/
def c8lines : List Line :=
  [.data ["date", "offset", "id", "lat", "lon", "elev", "obs", "fcst"],
   .data ["1", "0", "7", "1", "2", "3", "5", "9"],
   .data ["1", "1", "7", "10", "2", "3", "5", "9"],
   .data ["1", "2", "7", "20", "2", "3", "5", "9"],
   .data ["1", "3", "7", "30", "2", "3", "5", "9"]]

def c8st : ParseState :=
  { initState with locationInfo := [(some 7, ⟨some 7, 1, 2, 3⟩)] }

def c8c : RowC := ⟨some 1, some 0, some 7, some 10, some 2, some 3⟩

/-- A data row with exactly as many fields as the header, but a field
Python's float() rejects. -/
def c9lines : List Line := [.data ["obs", "fcst"], .data ["a", "b"]]

def c9header : List String := ["obs", "fcst"]

def c9indices : List (String × ℕ) := [("obs", 0), ("fcst", 1)]

/-- Header (with pit, threshold and quantile columns) plus a first data
row; the second row below resolves to the same sparse key with different
obs, pit, threshold and quantile values. -/
def c10header : List String :=
  ["date", "offset", "id", "lat", "lon", "elev", "obs", "fcst", "pit", "p7", "q40"]

def c10lines2 : List Line :=
  [.data c10header,
   .data ["1", "0", "1", "1", "2", "3", "5", "9", "0.5", "0.8", "4"]]

def c10st1 : ParseState := (parseOut c10lines2).getD initState

def c10indices : List (String × ℕ) :=
  [("date", 0), ("offset", 1), ("id", 2), ("lat", 3), ("lon", 4), ("elev", 5),
   ("obs", 6), ("fcst", 7), ("pit", 8), ("p7", 9), ("q40", 10)]

def c10row2 : List String :=
  ["1", "0", "1", "1", "2", "3", "6", "9", "0.6", "0.9", "7"]

def c10linesFull : List Line := c10lines2 ++ [.data c10row2]

def c10c : RowC := ⟨some 1, some 0, some 1, some 1, some 2, some 3⟩

/-! ## Infrastructure lemmas -/

theorem alookup_ainsert_self [DecidableEq κ] (l : List (κ × α)) (k : κ) (v : α) :
    alookup (ainsert l k v) k = some v := by
  induction l with
  | nil => simp [ainsert, alookup]
  | cons p rest ih =>
    obtain ⟨k2, v2⟩ := p
    by_cases h : k2 = k
    · simp [ainsert, alookup, h]
    · simp [ainsert, alookup, h, ih]

theorem alookup_ainsert_ne [DecidableEq κ] (l : List (κ × α)) (k k0 : κ) (v : α)
    (h : k0 ≠ k) : alookup (ainsert l k v) k0 = alookup l k0 := by
  induction l with
  | nil =>
    simp only [ainsert, alookup]
    rw [if_neg (fun he => h he.symm)]
  | cons p rest ih =>
    obtain ⟨k2, v2⟩ := p
    by_cases h2 : k2 = k
    · subst h2
      simp only [ainsert, if_pos rfl, alookup]
      rw [if_neg (fun he => h he.symm), if_neg (fun he => h he.symm)]
    · simp only [ainsert, if_neg h2, alookup]
      by_cases h3 : k2 = k0
      · rw [if_pos h3, if_pos h3]
      · rw [if_neg h3, if_neg h3]
        exact ih

theorem addFS_nodup [DecidableEq α] {l : List α} (a : α) (h : l.Nodup) :
    (addFS l a).Nodup := by
  unfold addFS
  split
  · exact h
  · rename_i hna
    rw [List.nodup_append]
    refine ⟨h, List.nodup_singleton a, ?_⟩
    intro x hx hx2
    rw [List.mem_singleton] at hx2
    subst hx2
    exact hna hx

theorem runLines_inv {P : ParseState → Prop}
    (hstep : ∀ st l st2, P st → processLine st l = .ok st2 → P st2) :
    ∀ (ls : List Line) (st st2 : ParseState), P st → runLines st ls = .ok st2 → P st2 := by
  intro ls
  induction ls with
  | nil =>
    intro st st2 hP h
    simp only [runLines] at h
    cases h
    exact hP
  | cons l rest ih =>
    intro st st2 hP h
    simp only [runLines] at h
    cases hpl : processLine st l with
    | error e => rw [hpl] at h; exact Except.noConfusion h
    | ok stm => rw [hpl] at h; exact ih stm st2 (hstep st l stm hP hpl) h

/-- Transfer the parse invariant across field-wise equal states. -/
theorem StInv_of_eq (st st2 : ParseState)
    (hd : st2.dates = st.dates) (ho : st2.offsets = st.offsets)
    (hq : st2.quantiles = st.quantiles) (ht : st2.thresholds = st.thresholds)
    (hw : st2.conflictWarnings = st.conflictWarnings)
    (hs : st2.shownConflictingWarning = st.shownConflictingWarning)
    (h : StInv st) : StInv st2 := by
  unfold StInv at *
  rw [hd, ho, hq, ht, hw, hs]
  exact h

theorem storePit_frame (st : ParseState) (indices : List (String × ℕ))
    (row : List String) (key : SKey) (st2 : ParseState)
    (h : storePit st indices row key = .ok st2) :
    st2.dates = st.dates ∧ st2.offsets = st.offsets ∧ st2.locations = st.locations ∧
    st2.quantiles = st.quantiles ∧ st2.thresholds = st.thresholds ∧
    st2.locationInfo = st.locationInfo ∧
    st2.shownConflictingWarning = st.shownConflictingWarning ∧
    st2.conflictWarnings = st.conflictWarnings ∧
    st2.obs = st.obs ∧ st2.fcst = st.fcst ∧ st2.x = st.x ∧ st2.cdf = st.cdf := by
  unfold storePit at h
  split at h
  · cases h
    exact ⟨rfl, rfl, rfl, rfl, rfl, rfl, rfl, rfl, rfl, rfl, rfl, rfl⟩
  · split at h
    · exact Except.noConfusion h
    · cases h
      exact ⟨rfl, rfl, rfl, rfl, rfl, rfl, rfl, rfl, rfl, rfl, rfl, rfl⟩

theorem storeQuantiles_effects (indices : List (String × ℕ)) (row : List String)
    (key : SKey) :
    ∀ (fields : List String) (st st2 : ParseState),
      storeQuantiles indices row key fields st = .ok st2 →
      st2.dates = st.dates ∧ st2.offsets = st.offsets ∧ st2.locations = st.locations ∧
      st2.thresholds = st.thresholds ∧ st2.locationInfo = st.locationInfo ∧
      st2.shownConflictingWarning = st.shownConflictingWarning ∧
      st2.conflictWarnings = st.conflictWarnings ∧
      st2.obs = st.obs ∧ st2.fcst = st.fcst ∧ st2.pit = st.pit ∧ st2.cdf = st.cdf ∧
      (st.quantiles.Nodup → st2.quantiles.Nodup)
  | [], st, st2, h => by
    cases h
    exact ⟨rfl, rfl, rfl, rfl, rfl, rfl, rfl, rfl, rfl, rfl, rfl, fun hn => hn⟩
  | field :: rest, st, st2, h => by
    unfold storeQuantiles at h
    cases hq : pfloat (field.drop 1) with
    | none => rw [hq] at h; exact Except.noConfusion h
    | some q =>
      rw [hq] at h
      cases hv : mandCol indices row field with
      | error e => rw [hv] at h; exact Except.noConfusion h
      | ok v =>
        rw [hv] at h
        obtain ⟨e1, e2, e3, e4, e5, e6, e7, e8, e9, e10, e11, e12⟩ :=
          storeQuantiles_effects indices row key rest
            { st with quantiles := addFS st.quantiles q
                      x := ainsert st.x (key.withLevel q) v } st2 h
        exact ⟨e1, e2, e3, e4, e5, e6, e7, e8, e9, e10, e11,
          fun hn => e12 (addFS_nodup q hn)⟩

theorem storeThresholds_effects (indices : List (String × ℕ)) (row : List String)
    (key : SKey) :
    ∀ (fields : List String) (st st2 : ParseState),
      storeThresholds indices row key fields st = .ok st2 →
      st2.dates = st.dates ∧ st2.offsets = st.offsets ∧ st2.locations = st.locations ∧
      st2.quantiles = st.quantiles ∧ st2.locationInfo = st.locationInfo ∧
      st2.shownConflictingWarning = st.shownConflictingWarning ∧
      st2.conflictWarnings = st.conflictWarnings ∧
      st2.obs = st.obs ∧ st2.fcst = st.fcst ∧ st2.pit = st.pit ∧ st2.x = st.x ∧
      (st.thresholds.Nodup → st2.thresholds.Nodup)
  | [], st, st2, h => by
    cases h
    exact ⟨rfl, rfl, rfl, rfl, rfl, rfl, rfl, rfl, rfl, rfl, rfl, fun hn => hn⟩
  | field :: rest, st, st2, h => by
    unfold storeThresholds at h
    cases hq : pfloat (field.drop 1) with
    | none => rw [hq] at h; exact Except.noConfusion h
    | some q =>
      rw [hq] at h
      cases hv : mandCol indices row field with
      | error e => rw [hv] at h; exact Except.noConfusion h
      | ok v =>
        rw [hv] at h
        obtain ⟨e1, e2, e3, e4, e5, e6, e7, e8, e9, e10, e11, e12⟩ :=
          storeThresholds_effects indices row key rest
            { st with thresholds := addFS st.thresholds q
                      cdf := ainsert st.cdf (key.withLevel q) v } st2 h
        exact ⟨e1, e2, e3, e4, e5, e6, e7, e8, e9, e10, e11,
          fun hn => e12 (addFS_nodup q hn)⟩

theorem resolveLoc_fields (st : ParseState) (c : RowC) :
    (resolveLoc st c).1.dates = st.dates ∧
    (resolveLoc st c).1.offsets = st.offsets ∧
    (resolveLoc st c).1.quantiles = st.quantiles ∧
    (resolveLoc st c).1.thresholds = st.thresholds ∧
    (resolveLoc st c).1.obs = st.obs ∧
    (resolveLoc st c).1.fcst = st.fcst ∧
    (resolveLoc st c).1.pit = st.pit ∧
    (resolveLoc st c).1.x = st.x ∧
    (resolveLoc st c).1.cdf = st.cdf := by
  unfold resolveLoc
  split
  · split
    · exact ⟨rfl, rfl, rfl, rfl, rfl, rfl, rfl, rfl, rfl⟩
    · exact ⟨rfl, rfl, rfl, rfl, rfl, rfl, rfl, rfl, rfl⟩
  · exact ⟨rfl, rfl, rfl, rfl, rfl, rfl, rfl, rfl, rfl⟩

theorem resolveLoc_warn (st : ParseState) (c : RowC)
    (hI : st.conflictWarnings = (if st.shownConflictingWarning then 1 else 0)) :
    (resolveLoc st c).1.conflictWarnings =
      (if (resolveLoc st c).1.shownConflictingWarning then 1 else 0) := by
  unfold resolveLoc
  split
  · split
    · rename_i hcond
      have hs : st.shownConflictingWarning = false := by
        cases hshow : st.shownConflictingWarning
        · rfl
        · rw [hshow] at hcond
          simp at hcond
      show st.conflictWarnings + 1 = 1
      rw [hI, hs]
      simp
    · exact hI
  · exact hI

theorem processRow_StInv (st : ParseState) (header : List String)
    (indices : List (String × ℕ)) (row : List String) (st2 : ParseState)
    (h : processRow st header indices row = .ok st2) (hI : StInv st) : StInv st2 := by
  unfold processRow at h
  split at h
  · exact Except.noConfusion h
  · cases hc : rowCoords indices row with
    | error e => rw [hc] at h; exact Except.noConfusion h
    | ok c =>
      rw [hc] at h
      dsimp only at h
      cases hobs : mandCol indices row "obs" with
      | error e => rw [hobs] at h; exact Except.noConfusion h
      | ok obsv =>
        rw [hobs] at h
        dsimp only at h
        cases hfcst : mandCol indices row "fcst" with
        | error e => rw [hfcst] at h; exact Except.noConfusion h
        | ok fcstv =>
          rw [hfcst] at h
          dsimp only at h
          cases hpit : storePit (rowSt3 st c obsv fcstv) indices row (rowKey st c) with
          | error e => rw [hpit] at h; exact Except.noConfusion h
          | ok st4 =>
            rw [hpit] at h
            dsimp only at h
            cases hq : storeQuantiles indices row (rowKey st c)
                (get_quantile_fields header) st4 with
            | error e => rw [hq] at h; exact Except.noConfusion h
            | ok st5 =>
              rw [hq] at h
              dsimp only at h
              have h1 : StInv (rowSt1 st c) := by
                obtain ⟨d1, d2, d3, d4, d5⟩ := hI
                exact ⟨addFS_nodup c.date d1, addFS_nodup c.offset d2, d3, d4, d5⟩
              have h2 : StInv (rowSt2 st c) := by
                unfold rowSt2
                obtain ⟨d1, d2, d3, d4, d5⟩ := h1
                obtain ⟨f1, f2, f3, f4, _, _, _, _, _⟩ :=
                  resolveLoc_fields (rowSt1 st c) c
                refine ⟨?_, ?_, ?_, ?_, ?_⟩
                · rw [f1]; exact d1
                · rw [f2]; exact d2
                · rw [f3]; exact d3
                · rw [f4]; exact d4
                · exact resolveLoc_warn (rowSt1 st c) c d5
              have h3 : StInv (rowSt3 st c obsv fcstv) := by
                obtain ⟨d1, d2, d3, d4, d5⟩ := h2
                exact ⟨d1, d2, d3, d4, d5⟩
              have h4 : StInv st4 := by
                obtain ⟨p1, p2, _, p4, p5, _, p7, p8, _, _, _, _⟩ :=
                  storePit_frame _ _ _ _ _ hpit
                obtain ⟨d1, d2, d3, d4, d5⟩ := h3
                refine ⟨?_, ?_, ?_, ?_, ?_⟩
                · rw [p1]; exact d1
                · rw [p2]; exact d2
                · rw [p4]; exact d3
                · rw [p5]; exact d4
                · rw [p8, p7]; exact d5
              have h5 : StInv st5 := by
                obtain ⟨e1, e2, _, e4, _, e6, e7, _, _, _, _, e12⟩ :=
                  storeQuantiles_effects _ _ _ _ _ _ hq
                obtain ⟨d1, d2, d3, d4, d5⟩ := h4
                refine ⟨?_, ?_, ?_, ?_, ?_⟩
                · rw [e1]; exact d1
                · rw [e2]; exact d2
                · exact e12 d3
                · rw [e4]; exact d4
                · rw [e7, e6]; exact d5
              obtain ⟨t1, t2, _, t4, _, t6, t7, _, _, _, _, t12⟩ :=
                storeThresholds_effects _ _ _ _ _ _ h
              obtain ⟨d1, d2, d3, d4, d5⟩ := h5
              refine ⟨?_, ?_, ?_, ?_, ?_⟩
              · rw [t1]; exact d1
              · rw [t2]; exact d2
              · rw [t4]; exact d3
              · exact t12 d4
              · rw [t7, t6]; exact d5

theorem processLine_StInv (st : ParseState) (l : Line) (st2 : ParseState)
    (h : processLine st l = .ok st2) (hI : StInv st) : StInv st2 := by
  cases l with
  | comment curr =>
    unfold processLine at h
    cases curr with
    | nil => exact Except.noConfusion h
    | cons c0 rest =>
      dsimp only at h
      by_cases h1 : c0 = "variable:"
      · rw [if_pos h1] at h
        cases h
        exact hI
      · rw [if_neg h1] at h
        by_cases h2 : c0 = "units:"
        · rw [if_pos h2] at h
          cases rest with
          | nil => exact Except.noConfusion h
          | cons u urest => cases h; exact hI
        · rw [if_neg h2] at h
          cases h
          exact hI
  | data row =>
    unfold processLine at h
    dsimp only at h
    cases hh : st.header with
    | none =>
      rw [hh] at h
      dsimp only at h
      cases hph : parseHeader row with
      | error e => rw [hph] at h; exact Except.noConfusion h
      | ok indices => rw [hph] at h; cases h; exact hI
    | some header =>
      rw [hh] at h
      exact processRow_StInv st header st.indices row st2 h hI

theorem textParse_StInv (lines : List Line) (st : ParseState)
    (h : textParse lines = .ok st) : StInv st :=
  runLines_inv (fun s l s2 hP hpl => processLine_StInv s l s2 hpl hP) lines initState st
    ⟨List.nodup_nil, List.nodup_nil, List.nodup_nil, List.nodup_nil, rfl⟩ h

theorem parseOut_ok (lines : List Line) (st : ParseState)
    (h : parseOut lines = some st) : textParse lines = .ok st := by
  unfold parseOut at h
  cases h2 : textParse lines with
  | error e => rw [h2] at h; exact Option.noConfusion h
  | ok st0 =>
    rw [h2] at h
    have h3 : st0 = st := by simpa [Except.toOption] using h
    rw [← h3]

/-- C1: Naming-codec round-trip over the sampled thresholds and quantiles.
The claim FAILS at threshold -0.5: the encoder produces "pm05", and the
decoder — which restores "-" for "m" before attempting the "p0" to "0."
decimal-point reinsertion, which then no longer matches — returns -5, not
-0.5.  All other sampled thresholds (-2, 0, 0.3, 5) and all sampled
quantiles (0, 0.3, 0.5, 1) do round-trip exactly. -/
theorem comps_codec_roundtrip_eval :
    Comps.verif_to_comps_threshold (-1/2) = "pm05" ∧
    Comps.comps_to_verif_threshold "pm05" = some (-5) ∧
    Comps.comps_to_verif_threshold (Comps.verif_to_comps_threshold (-2)) = some (-2) ∧
    Comps.comps_to_verif_threshold (Comps.verif_to_comps_threshold 0) = some 0 ∧
    Comps.comps_to_verif_threshold (Comps.verif_to_comps_threshold (3/10)) = some (3/10) ∧
    Comps.comps_to_verif_threshold (Comps.verif_to_comps_threshold 5) = some 5 ∧
    Comps.verif_to_comps_quantile 0 = some "q0" ∧
    Comps.comps_to_verif_quantile "q0" = some 0 ∧
    Comps.verif_to_comps_quantile (3/10) = some "q30" ∧
    Comps.comps_to_verif_quantile "q30" = some (3/10) ∧
    Comps.verif_to_comps_quantile (1/2) = some "q50" ∧
    Comps.comps_to_verif_quantile "q50" = some (1/2) ∧
    Comps.verif_to_comps_quantile 1 = some "q100" ∧
    Comps.comps_to_verif_quantile "q100" = some 1 := by
  with_unfolding_all decide

/-! ## C2: the legacy validity predicate -/

/-- C2: `Comps.is_valid` does NOT test the convention attribute: the try
block computes the local `valid` but then executes `return True`, so every
readable NetCDF file is accepted — one with no attributes at all, and one
whose convention attribute reads "other" rather than "comps".  Only an
unreadable file (or the hasattr/getattr spelling mismatch) is rejected. -/
theorem comps_is_valid_accepts_everything :
    Comps.is_valid (some ⟨[]⟩) = true ∧
    Comps.is_valid (some ⟨[("Convensions", "comps"), ("Convension", "other")]⟩) = true ∧
    Comps.is_valid none = false := by
  decide

/-! ## C3: the dispatcher -/

/-- C3: `get_input` fails with the file-not-found error for non-existing
paths before any predicate runs; for existing paths it returns the first
decoder of the fixed probe order [NetcdfCf, Comps, Text] whose validity
predicate accepts; and — because `Text.is_valid` accepts everything — the
final UnrecognizedFormat branch is unreachable. -/
theorem get_input_dispatch (fm : FileModel) :
    (fm.pathExists = false → get_input fm = .error .fileNotFound) ∧
    (fm.pathExists = true →
      ∃ d, firstAccepting fm = some d ∧ get_input fm = .ok d) ∧
    get_input fm ≠ .error .unrecognizedFormat := by
  obtain ⟨pe, nc⟩ := fm
  refine ⟨?_, ?_, ?_⟩
  · intro h
    simp only at h
    subst h
    rfl
  · intro h
    simp only at h
    subst h
    by_cases h1 : NetcdfCf.is_valid nc = true
    · exact ⟨.netcdfCf, by simp [firstAccepting, decoderProbes, List.find?, h1],
        by simp [get_input, h1]⟩
    · by_cases h2 : Comps.is_valid nc = true
      · exact ⟨.comps, by simp [firstAccepting, decoderProbes, List.find?, h1, h2],
          by simp [get_input, h1, h2]⟩
      · exact ⟨.text,
          by simp [firstAccepting, decoderProbes, List.find?, h1, h2, Text.is_valid],
          by simp [get_input, h1, h2, Text.is_valid]⟩
  · cases pe
    · simp [get_input]
    · by_cases h1 : NetcdfCf.is_valid nc = true
      · simp [get_input, h1]
      · by_cases h2 : Comps.is_valid nc = true
        · simp [get_input, h1, h2]
        · simp [get_input, h1, h2, Text.is_valid]

/-- Witness for C3: a missing path yields the file-not-found error; an
existing path that no structured decoder accepts is dispatched to the text
decoder; an existing self-describing file is dispatched to NetcdfCf. -/
theorem get_input_dispatch_witness :
    get_input ⟨false, none⟩ = .error .fileNotFound ∧
    get_input ⟨true, none⟩ = .ok .text ∧
    get_input ⟨true, some ⟨[("Conventions", "verif_1.0.0")]⟩⟩ = .ok .netcdfCf := by
  refine ⟨(get_input_dispatch ⟨false, none⟩).1 rfl, ?_, ?_⟩
  · obtain ⟨d, h1, h2⟩ := (get_input_dispatch ⟨true, none⟩).2.1 rfl
    have hd : some d = some DecoderKind.text := by rw [← h1]; rfl
    cases hd
    exact h2
  · obtain ⟨d, h1, h2⟩ :=
      (get_input_dispatch ⟨true, some ⟨[("Conventions", "verif_1.0.0")]⟩⟩).2.1 rfl
    have hd : some d = some DecoderKind.netcdfCf := by rw [← h1]; rfl
    cases hd
    exact h2

/-! ## C5: quantile range -/

/-- C5 (amended): only the legacy (Comps) decoder's quantile discovery
guarantees the [0,1] range — `_comps_to_verif_quantile` returns a value
only after checking `0 <= temp <= 1`.  The text decoder stores the literal
numeric suffix of each q-column with no range check (see the
counterexample). -/
theorem comps_quantile_in_range (s : String) (q : ℚ)
    (h : Comps.comps_to_verif_quantile s = some q) : 0 ≤ q ∧ q ≤ 1 := by
  unfold Comps.comps_to_verif_quantile at h
  split at h
  · dsimp only at h
    split at h
    · cases hp : pfloat ((s.replace "q0" "0.").replace "q" "") with
      | none => rw [hp] at h; exact Option.noConfusion h
      | some t =>
        rw [hp] at h
        simp only [Option.some_bind] at h
        split at h
        · rename_i hrange
          cases h
          exact hrange
        · exact Option.noConfusion h
    · exact Option.noConfusion h
  · exact Option.noConfusion h

/-- Witness for C5's amended theorem: the legacy token "q30" decodes to
0.3, which the theorem places in [0,1]. -/
theorem comps_quantile_in_range_witness : 0 ≤ (3/10 : ℚ) ∧ (3/10 : ℚ) ≤ 1 :=
  comps_quantile_in_range "q30" (3/10) (by with_unfolding_all decide)

/-- Counterexample for C5: a text input whose header carries the quantile
column "q30" produces the quantile value 30, far outside [0,1] — the text
decoder takes the literal suffix with no range check.  The full snapshot
(with the runtime's enumerations) exposes exactly that value. -/
theorem text_quantile_out_of_range :
    (parseOut c5lines).map ParseState.quantiles = some [30] ∧
    enumsOk c5lines [some 1] [some 0] [⟨none, 0, 0, 0⟩] [30] [] = true ∧
    (loadSnap c5lines [some 1] [some 0] [⟨none, 0, 0, 0⟩] [30] []).map Snapshot.quantiles =
      some [30] ∧
    ¬ ((30 : ℚ) ≤ 1) := by
  refine ⟨by with_unfolding_all rfl, by with_unfolding_all rfl,
    by with_unfolding_all rfl, by norm_num⟩

/-! ## C7: distinctness of the frozen coordinate sequences -/

/-- C7 (amended): the accumulated date and offset sets are duplicate-free
and contain exactly the distinct values observed while parsing, and any
freeze enumeration of them (any result of `list(someSet)`) keeps exactly
those distinct values with no duplicate.  The ORDER of the frozen
sequence, however, is CPython's set-iteration order, not first-seen order
— see the counterexample. -/
theorem coord_sets_distinct (lines : List Line) (ds os : List Val) :
    optAll (parseOut lines) (fun st =>
      st.dates.Nodup ∧ st.offsets.Nodup ∧
      (IsEnum st.dates ds → ds.Nodup ∧ ∀ v, v ∈ ds ↔ v ∈ st.dates) ∧
      (IsEnum st.offsets os → os.Nodup ∧ ∀ v, v ∈ os ↔ v ∈ st.offsets)) := by
  intro st hst
  have ht : textParse lines = .ok st := parseOut_ok lines st hst
  obtain ⟨d1, d2, _, _, _⟩ := textParse_StInv lines st ht
  exact ⟨d1, d2,
    fun hp => ⟨hp.nodup d1, fun v => hp.mem_iff.symm⟩,
    fun hp => ⟨hp.nodup d2, fun v => hp.mem_iff.symm⟩⟩

/-- Witness for C7's amended theorem, on a concrete two-row file. -/
theorem coord_sets_distinct_witness :
    (parseOut c7lines).isSome = true ∧
    optAll (parseOut c7lines) (fun st =>
      st.dates.Nodup ∧ st.offsets.Nodup ∧
      (IsEnum st.dates [some 1] →
        ([some 1] : List Val).Nodup ∧ ∀ v, v ∈ ([some 1] : List Val) ↔ v ∈ st.dates) ∧
      (IsEnum st.offsets [some 0, some 1] →
        ([some 0, some 1] : List Val).Nodup ∧
        ∀ v, v ∈ ([some 0, some 1] : List Val) ↔ v ∈ st.offsets)) :=
  ⟨by with_unfolding_all rfl, coord_sets_distinct c7lines [some 1] [some 0, some 1]⟩

/-- Counterexample for C7: the rows present the offsets in the order 1
then 0, so the first-seen sequence is [1, 0]; but CPython freezes the
offsets set in hash-table order — 0.0 and 1.0 occupy slots 0 and 1 of the
size-8 table — so `list(self._offsets)` is [0, 1] whatever the insertion
order, and the snapshot's offsets coordinate sequence is [0, 1], not the
first-seen [1, 0]. -/
theorem coord_order_not_first_seen :
    (parseOut c7lines).map ParseState.offsets = some [some 1, some 0] ∧
    cpySetList [some 1, some 0] = some [some 0, some 1] ∧
    enumsOk c7lines [some 1] [some 0, some 1] c7locs [] [] = true ∧
    (loadSnap c7lines [some 1] [some 0, some 1] c7locs [] []).map Snapshot.offsets =
      some [some 0, some 1] ∧
    ([some 0, some 1] : List Val) ≠ [some 1, some 0] := by
  refine ⟨by with_unfolding_all rfl, by with_unfolding_all rfl,
    by with_unfolding_all rfl, by with_unfolding_all rfl, by simp⟩

/-! ## C8: conflict-warning suppression -/

/-- C8: a whole parse emits at most one conflict warning (the counter
mirrors the shown-flag, so a second warning is impossible); and a data row
whose non-nan id is already registered keeps the registry untouched — its
values are keyed under the originally registered identity's lat/lon/elev,
the location list and identity table are unchanged — and it bumps the
warning count exactly when no warning was shown yet and some non-missing
row coordinate violates the tolerances. -/
theorem conflict_warning_once :
    (∀ (lines : List Line) (n : ℕ),
      (parseOut lines).map ParseState.conflictWarnings = some n → n ≤ 1) ∧
    (∀ (st : ParseState) (c : RowC) (i : ℚ) (loc : Location),
      c.id = some i → alookup st.locationInfo c.id = some loc →
      rowLoc st c = loc ∧
      (rowSt2 st c).locations = st.locations ∧
      (rowSt2 st c).locationInfo = st.locationInfo ∧
      rowKey st c = ⟨c.date, c.offset, loc.lat, loc.lon, loc.elev⟩ ∧
      (rowSt2 st c).conflictWarnings = st.conflictWarnings +
        (if !st.shownConflictingWarning && conflictB loc c.lat c.lon c.elev then 1
         else 0)) := by
  constructor
  · intro lines n h
    cases hp : parseOut lines with
    | none => rw [hp] at h; exact Option.noConfusion h
    | some st =>
      rw [hp] at h
      have hn : st.conflictWarnings = n := by simpa using h
      obtain ⟨_, _, _, _, hw⟩ := textParse_StInv lines st (parseOut_ok lines st hp)
      rw [← hn, hw]
      split <;> simp
  · intro st c i loc hid hlk
    have hlk2 : alookup st.locationInfo (some i) = some loc := hid ▸ hlk
    have hloc : rowLoc st c = loc := by
      unfold rowLoc rowSt1 resolveLoc
      dsimp only
      rw [hid, hlk2]
    have hfields : (rowSt2 st c).locations = st.locations ∧
        (rowSt2 st c).locationInfo = st.locationInfo ∧
        (rowSt2 st c).conflictWarnings = st.conflictWarnings +
          (if !st.shownConflictingWarning && conflictB loc c.lat c.lon c.elev then 1
           else 0) := by
      unfold rowSt2 rowSt1 resolveLoc
      dsimp only
      rw [hid, hlk2]
      dsimp only
      split
      · exact ⟨rfl, rfl, rfl⟩
      · exact ⟨rfl, rfl, rfl⟩
    refine ⟨hloc, hfields.1, hfields.2.1, ?_, hfields.2.2⟩
    unfold rowKey
    rw [hloc]

/-- Witness for C8: a file with three successive conflicting rows emits
exactly one warning; a concrete registered-id row reuses the stored
identity and bumps the counter once. -/
theorem conflict_warning_once_witness :
    (parseOut c8lines).map ParseState.conflictWarnings = some 1 ∧
    (1 : ℕ) ≤ 1 ∧
    rowLoc c8st c8c = ⟨some 7, 1, 2, 3⟩ ∧
    (rowSt2 c8st c8c).locations = c8st.locations ∧
    (rowSt2 c8st c8c).conflictWarnings = 1 :=
  ⟨by with_unfolding_all rfl,
   conflict_warning_once.1 c8lines 1 (by with_unfolding_all rfl),
   (conflict_warning_once.2 c8st c8c 7 ⟨some 7, 1, 2, 3⟩ rfl
     (by with_unfolding_all rfl)).1,
   (conflict_warning_once.2 c8st c8c 7 ⟨some 7, 1, 2, 3⟩ rfl
     (by with_unfolding_all rfl)).2.1,
   by with_unfolding_all rfl⟩

/-! ## C9: the row-arity check -/

theorem clean_ne_arity (s : String) (h : clean s = .error .arityMismatch) :
    False := by
  unfold clean at h
  split at h
  · simp at h
  · exact Except.noConfusion h

theorem readNum_ne_arity (row : List String) (i : ℕ)
    (h : readNum row i = .error .arityMismatch) : False := by
  unfold readNum at h
  split at h
  · simp at h
  · exact clean_ne_arity _ h

theorem colVal_ne_arity (indices : List (String × ℕ)) (row : List String)
    (name : String) (dflt : Val)
    (h : colVal indices row name dflt = .error .arityMismatch) : False := by
  unfold colVal at h
  split at h
  · exact Except.noConfusion h
  · exact readNum_ne_arity _ _ h

theorem mandCol_ne_arity (indices : List (String × ℕ)) (row : List String)
    (name : String) (h : mandCol indices row name = .error .arityMismatch) :
    False := by
  unfold mandCol at h
  split at h
  · simp at h
  · exact readNum_ne_arity _ _ h

theorem rowCoords_ne_arity (indices : List (String × ℕ)) (row : List String)
    (h : rowCoords indices row = .error .arityMismatch) : False := by
  unfold rowCoords at h
  cases h1 : colVal indices row "date" (some 0) with
  | error e =>
    rw [h1] at h
    simp only [Except.error.injEq] at h
    subst h
    exact colVal_ne_arity _ _ _ _ h1
  | ok date =>
    rw [h1] at h
    dsimp only at h
    cases h2 : colVal indices row "offset" (some 0) with
    | error e =>
      rw [h2] at h
      simp only [Except.error.injEq] at h
      subst h
      exact colVal_ne_arity _ _ _ _ h2
    | ok offset =>
      rw [h2] at h
      dsimp only at h
      cases h3 : colVal indices row "id" none with
      | error e =>
        rw [h3] at h
        simp only [Except.error.injEq] at h
        subst h
        exact colVal_ne_arity _ _ _ _ h3
      | ok id =>
        rw [h3] at h
        dsimp only at h
        cases h4 : colVal indices row "lat" none with
        | error e =>
          rw [h4] at h
          simp only [Except.error.injEq] at h
          subst h
          exact colVal_ne_arity _ _ _ _ h4
        | ok lat =>
          rw [h4] at h
          dsimp only at h
          cases h5 : colVal indices row "lon" none with
          | error e =>
            rw [h5] at h
            simp only [Except.error.injEq] at h
            subst h
            exact colVal_ne_arity _ _ _ _ h5
          | ok lon =>
            rw [h5] at h
            dsimp only at h
            cases h6 : colVal indices row "elev" none with
            | error e =>
              rw [h6] at h
              simp only [Except.error.injEq] at h
              subst h
              exact colVal_ne_arity _ _ _ _ h6
            | ok elev =>
              rw [h6] at h
              simp at h

theorem storePit_ne_arity (st : ParseState) (indices : List (String × ℕ))
    (row : List String) (key : SKey)
    (h : storePit st indices row key = .error .arityMismatch) : False := by
  unfold storePit at h
  split at h
  · exact Except.noConfusion h
  · rename_i i hlk
    cases hr : readNum row i with
    | error e =>
      rw [hr] at h
      simp only [Except.error.injEq] at h
      subst h
      exact readNum_ne_arity _ _ hr
    | ok v => rw [hr] at h; simp at h

theorem storeQuantiles_ne_arity (indices : List (String × ℕ)) (row : List String)
    (key : SKey) :
    ∀ (fields : List String) (st : ParseState),
      storeQuantiles indices row key fields st = .error .arityMismatch → False
  | [], _, h => Except.noConfusion h
  | field :: rest, st, h => by
    unfold storeQuantiles at h
    cases hq : pfloat (field.drop 1) with
    | none => rw [hq] at h; simp at h
    | some q =>
      rw [hq] at h
      cases hv : mandCol indices row field with
      | error e =>
        rw [hv] at h
        simp only [Except.error.injEq] at h
        subst h
        exact mandCol_ne_arity _ _ _ hv
      | ok v =>
        rw [hv] at h
        exact storeQuantiles_ne_arity indices row key rest _ h

theorem storeThresholds_ne_arity (indices : List (String × ℕ)) (row : List String)
    (key : SKey) :
    ∀ (fields : List String) (st : ParseState),
      storeThresholds indices row key fields st = .error .arityMismatch → False
  | [], _, h => Except.noConfusion h
  | field :: rest, st, h => by
    unfold storeThresholds at h
    cases hq : pfloat (field.drop 1) with
    | none => rw [hq] at h; simp at h
    | some q =>
      rw [hq] at h
      cases hv : mandCol indices row field with
      | error e =>
        rw [hv] at h
        simp only [Except.error.injEq] at h
        subst h
        exact mandCol_ne_arity _ _ _ hv
      | ok v =>
        rw [hv] at h
        exact storeThresholds_ne_arity indices row key rest _ h

/-- C9 (amended): the arity check is the first thing a data row meets — a
row whose field-count object is not identical to the header's (the count
differs, or the equal counts lie above CPython's interned small-int range)
aborts with the arity error before any field is parsed — and the arity
error arises only there: a row that passes the check can still abort the
load, but never with the arity error (e.g. a field float() rejects aborts
with a parse error; see the counterexample). -/
theorem row_arity_check (st : ParseState) (header : List String)
    (indices : List (String × ℕ)) (row : List String) :
    (pyIntIsNot row.length header.length = true →
      processRow st header indices row = .error .arityMismatch) ∧
    (pyIntIsNot row.length header.length = false →
      processRow st header indices row ≠ .error .arityMismatch) := by
  constructor
  · intro h
    unfold processRow
    rw [if_pos h]
  · intro hfalse h
    unfold processRow at h
    rw [if_neg (by simp [hfalse])] at h
    cases hc : rowCoords indices row with
    | error e =>
      rw [hc] at h
      simp only [Except.error.injEq] at h
      subst h
      exact rowCoords_ne_arity _ _ hc
    | ok c =>
      rw [hc] at h
      dsimp only at h
      cases hobs : mandCol indices row "obs" with
      | error e =>
        rw [hobs] at h
        simp only [Except.error.injEq] at h
        subst h
        exact mandCol_ne_arity _ _ _ hobs
      | ok obsv =>
        rw [hobs] at h
        dsimp only at h
        cases hfcst : mandCol indices row "fcst" with
        | error e =>
          rw [hfcst] at h
          simp only [Except.error.injEq] at h
          subst h
          exact mandCol_ne_arity _ _ _ hfcst
        | ok fcstv =>
          rw [hfcst] at h
          dsimp only at h
          cases hpit : storePit (rowSt3 st c obsv fcstv) indices row (rowKey st c) with
          | error e =>
            rw [hpit] at h
            simp only [Except.error.injEq] at h
            subst h
            exact storePit_ne_arity _ _ _ _ hpit
          | ok st4 =>
            rw [hpit] at h
            dsimp only at h
            cases hq : storeQuantiles indices row (rowKey st c)
                (get_quantile_fields header) st4 with
            | error e =>
              rw [hq] at h
              simp only [Except.error.injEq] at h
              subst h
              exact storeQuantiles_ne_arity _ _ _ _ _ hq
            | ok st5 =>
              rw [hq] at h
              dsimp only at h
              exact storeThresholds_ne_arity _ _ _ _ _ h

/-- Witness for C9's amended theorem: a one-field row against the
two-column header aborts with the arity error; a two-field row (whose
fields are parseable or not) never produces the arity error. -/
theorem row_arity_check_witness :
    processRow initState c9header c9indices ["1"] = .error .arityMismatch ∧
    processRow initState c9header c9indices ["1", "2"] ≠ .error .arityMismatch :=
  ⟨(row_arity_check initState c9header c9indices ["1"]).1 (by rfl),
   (row_arity_check initState c9header c9indices ["1", "2"]).2 (by rfl)⟩

/-- Counterexample for C9: the data row ["a", "b"] has exactly as many
fields as the header ["obs", "fcst"], yet the load aborts fatally — with
the float-parse error float("a") raises — so "error if and only if the
field count differs" is false; only the arity error itself is equivalent
to the count mismatch. -/
theorem row_equal_arity_still_fatal :
    parseErr c9lines = some .floatParse ∧
    (["a", "b"] : List String).length = c9header.length ∧
    some LoadErr.floatParse ≠ some LoadErr.arityMismatch := by
  refine ⟨by with_unfolding_all rfl, by rfl, by simp⟩

/-! ## C10: silent overwrite on duplicate sparse keys -/

theorem rowSt2_warnings (st : ParseState) (c : RowC) :
    (rowSt2 st c).conflictWarnings = st.conflictWarnings +
      (if warnCond st c = true then 1 else 0) := by
  unfold rowSt2 rowSt1 resolveLoc warnCond
  dsimp only
  split
  · split <;> rfl
  · rfl

/-- The pit write of lines 478-479: when the pit column exists and its
field parses, the table afterwards holds this row's value under the key,
whatever was there before. -/
theorem storePit_writes (st : ParseState) (indices : List (String × ℕ))
    (row : List String) (key : SKey) (st2 : ParseState) (i : ℕ) (pv : Val)
    (hi : alookup indices "pit" = some i) (hrv : readNum row i = .ok pv)
    (h : storePit st indices row key = .ok st2) :
    alookup st2.pit key = some pv := by
  unfold storePit at h
  rw [hi] at h
  dsimp only at h
  rw [hrv] at h
  dsimp only at h
  cases h
  exact alookup_ainsert_self _ _ _

/-- The quantile-column loop of lines 480-484: afterwards, any table entry
either kept its previous value or was written with a value cleaned from
this row; and the entry for each level the field list declares definitely
holds a value cleaned from this row (the last field with that level wins),
whatever an earlier row had stored there. -/
theorem storeQuantiles_writes (indices : List (String × ℕ)) (row : List String)
    (key : SKey) :
    ∀ (fields : List String) (st st2 : ParseState),
      storeQuantiles indices row key fields st = .ok st2 →
      (∀ k0 : QKey, alookup st2.x k0 = alookup st.x k0 ∨
        ∃ f2 q2 v2, f2 ∈ fields ∧ pfloat (f2.drop 1) = some q2 ∧
          k0 = key.withLevel q2 ∧ mandCol indices row f2 = .ok v2 ∧
          alookup st2.x k0 = some v2) ∧
      (∀ f ∈ fields, ∀ q : ℚ, pfloat (f.drop 1) = some q →
        ∃ f2 v2, f2 ∈ fields ∧ pfloat (f2.drop 1) = some q ∧
          mandCol indices row f2 = .ok v2 ∧
          alookup st2.x (key.withLevel q) = some v2)
  | [], st, st2, h => by
    cases h
    exact ⟨fun k0 => Or.inl rfl, fun f hf => absurd hf (List.not_mem_nil f)⟩
  | field :: rest, st, st2, h => by
    unfold storeQuantiles at h
    cases hq : pfloat (field.drop 1) with
    | none => rw [hq] at h; exact Except.noConfusion h
    | some q0 =>
      rw [hq] at h
      cases hv : mandCol indices row field with
      | error e => rw [hv] at h; exact Except.noConfusion h
      | ok v0 =>
        rw [hv] at h
        obtain ⟨ihA, ihB⟩ := storeQuantiles_writes indices row key rest
          { st with quantiles := addFS st.quantiles q0
                    x := ainsert st.x (key.withLevel q0) v0 } st2 h
        constructor
        · intro k0
          rcases ihA k0 with hA | ⟨f2, q2, v2, hf2, hq2, hk, hm, hl⟩
          · by_cases hk : k0 = key.withLevel q0
            · subst hk
              exact Or.inr ⟨field, q0, v0, List.mem_cons_self _ _, hq, rfl, hv,
                by rw [hA]; exact alookup_ainsert_self _ _ _⟩
            · exact Or.inl (by rw [hA]; exact alookup_ainsert_ne _ _ _ _ hk)
          · exact Or.inr ⟨f2, q2, v2, List.mem_cons_of_mem _ hf2, hq2, hk, hm, hl⟩
        · intro f hf q hqf
          rcases List.mem_cons.mp hf with hfe | hf2
          · subst hfe
            have hqq : q = q0 := Option.some.inj (hqf.symm.trans hq)
            subst hqq
            rcases ihA (key.withLevel q) with hA | ⟨f2, q2, v2, hf2, hq2, hk, hm, hl⟩
            · exact ⟨f, v0, List.mem_cons_self _ _, hq, hv,
                by rw [hA]; exact alookup_ainsert_self _ _ _⟩
            · have hqe : q = q2 := congrArg QKey.level hk
              subst hqe
              exact ⟨f2, v2, List.mem_cons_of_mem _ hf2, hq2, hm, hl⟩
          · obtain ⟨f2, v2, hf2m, hq2, hm, hl⟩ := ihB f hf2 q hqf
            exact ⟨f2, v2, List.mem_cons_of_mem _ hf2m, hq2, hm, hl⟩

/-- The threshold-column loop of lines 485-489, mirroring
`storeQuantiles_writes` for the cdf table. -/
theorem storeThresholds_writes (indices : List (String × ℕ)) (row : List String)
    (key : SKey) :
    ∀ (fields : List String) (st st2 : ParseState),
      storeThresholds indices row key fields st = .ok st2 →
      (∀ k0 : QKey, alookup st2.cdf k0 = alookup st.cdf k0 ∨
        ∃ f2 q2 v2, f2 ∈ fields ∧ pfloat (f2.drop 1) = some q2 ∧
          k0 = key.withLevel q2 ∧ mandCol indices row f2 = .ok v2 ∧
          alookup st2.cdf k0 = some v2) ∧
      (∀ f ∈ fields, ∀ t : ℚ, pfloat (f.drop 1) = some t →
        ∃ f2 v2, f2 ∈ fields ∧ pfloat (f2.drop 1) = some t ∧
          mandCol indices row f2 = .ok v2 ∧
          alookup st2.cdf (key.withLevel t) = some v2)
  | [], st, st2, h => by
    cases h
    exact ⟨fun k0 => Or.inl rfl, fun f hf => absurd hf (List.not_mem_nil f)⟩
  | field :: rest, st, st2, h => by
    unfold storeThresholds at h
    cases hq : pfloat (field.drop 1) with
    | none => rw [hq] at h; exact Except.noConfusion h
    | some q0 =>
      rw [hq] at h
      cases hv : mandCol indices row field with
      | error e => rw [hv] at h; exact Except.noConfusion h
      | ok v0 =>
        rw [hv] at h
        obtain ⟨ihA, ihB⟩ := storeThresholds_writes indices row key rest
          { st with thresholds := addFS st.thresholds q0
                    cdf := ainsert st.cdf (key.withLevel q0) v0 } st2 h
        constructor
        · intro k0
          rcases ihA k0 with hA | ⟨f2, q2, v2, hf2, hq2, hk, hm, hl⟩
          · by_cases hk : k0 = key.withLevel q0
            · subst hk
              exact Or.inr ⟨field, q0, v0, List.mem_cons_self _ _, hq, rfl, hv,
                by rw [hA]; exact alookup_ainsert_self _ _ _⟩
            · exact Or.inl (by rw [hA]; exact alookup_ainsert_ne _ _ _ _ hk)
          · exact Or.inr ⟨f2, q2, v2, List.mem_cons_of_mem _ hf2, hq2, hk, hm, hl⟩
        · intro f hf t hqf
          rcases List.mem_cons.mp hf with hfe | hf2
          · subst hfe
            have hqq : t = q0 := Option.some.inj (hqf.symm.trans hq)
            subst hqq
            rcases ihA (key.withLevel t) with hA | ⟨f2, q2, v2, hf2, hq2, hk, hm, hl⟩
            · exact ⟨f, v0, List.mem_cons_self _ _, hq, hv,
                by rw [hA]; exact alookup_ainsert_self _ _ _⟩
            · have hqe : t = q2 := congrArg QKey.level hk
              subst hqe
              exact ⟨f2, v2, List.mem_cons_of_mem _ hf2, hq2, hm, hl⟩
          · obtain ⟨f2, v2, hf2m, hq2, hm, hl⟩ := ihB f hf2 t hqf
            exact ⟨f2, v2, List.mem_cons_of_mem _ hf2m, hq2, hm, hl⟩

/-- C10: after a data row is processed, every sparse table holds that
row's cleaned values at the row's resolved key — obs and fcst directly;
pit whenever the pit column exists and its field parses; and, for each
quantile (threshold) level the header declares, the x (cdf) entry at that
level holds a value cleaned from this very row (the last header field
with that level wins) — so whatever an earlier row with the same resolved
key had stored is replaced.  The warning count moves only by the
registered-identity conflict check: the presence of previous entries
under the same key is never read, so duplicate keys as such are silent. -/
theorem sparse_overwrite (st : ParseState) (header : List String)
    (indices : List (String × ℕ)) (row : List String) (c : RowC)
    (obsv fcstv : Val)
    (hc : rowCoords indices row = .ok c)
    (hobs : mandCol indices row "obs" = .ok obsv)
    (hfcst : mandCol indices row "fcst" = .ok fcstv) :
    optAll (processRow st header indices row).toOption (fun st2 =>
      alookup st2.obs (rowKey st c) = some obsv ∧
      alookup st2.fcst (rowKey st c) = some fcstv ∧
      (∀ (i : ℕ) (pv : Val), alookup indices "pit" = some i →
        readNum row i = .ok pv →
        alookup st2.pit (rowKey st c) = some pv) ∧
      (∀ f ∈ get_quantile_fields header, ∀ q : ℚ, pfloat (f.drop 1) = some q →
        ∃ f2 v, f2 ∈ get_quantile_fields header ∧ pfloat (f2.drop 1) = some q ∧
          mandCol indices row f2 = .ok v ∧
          alookup st2.x ((rowKey st c).withLevel q) = some v) ∧
      (∀ f ∈ get_threshold_fields header, ∀ t : ℚ, pfloat (f.drop 1) = some t →
        ∃ f2 v, f2 ∈ get_threshold_fields header ∧ pfloat (f2.drop 1) = some t ∧
          mandCol indices row f2 = .ok v ∧
          alookup st2.cdf ((rowKey st c).withLevel t) = some v) ∧
      st2.conflictWarnings = st.conflictWarnings +
        (if warnCond st c = true then 1 else 0)) := by
  intro st2 h2
  have h : processRow st header indices row = .ok st2 := by
    cases he : processRow st header indices row with
    | error e => rw [he] at h2; exact Option.noConfusion h2
    | ok st0 =>
      rw [he] at h2
      have h3 : st0 = st2 := by simpa [Except.toOption] using h2
      rw [← h3]
  clear h2
  unfold processRow at h
  split at h
  · exact Except.noConfusion h
  · rw [hc] at h
    dsimp only at h
    rw [hobs] at h
    dsimp only at h
    rw [hfcst] at h
    dsimp only at h
    cases hpit : storePit (rowSt3 st c obsv fcstv) indices row (rowKey st c) with
    | error e => rw [hpit] at h; exact Except.noConfusion h
    | ok st4 =>
      rw [hpit] at h
      dsimp only at h
      cases hq : storeQuantiles indices row (rowKey st c)
          (get_quantile_fields header) st4 with
      | error e => rw [hq] at h; exact Except.noConfusion h
      | ok st5 =>
        rw [hq] at h
        dsimp only at h
        obtain ⟨_, _, _, _, _, _, _, p8, p9, p10, _, _⟩ :=
          storePit_frame _ _ _ _ _ hpit
        obtain ⟨_, _, _, _, _, _, e7, e8, e9, e10, _, _⟩ :=
          storeQuantiles_effects _ _ _ _ _ _ hq
        obtain ⟨_, _, _, _, _, _, t7, t8, t9, t10, t11, _⟩ :=
          storeThresholds_effects _ _ _ _ _ _ h
        refine ⟨?_, ?_, ?_, ?_, ?_, ?_⟩
        · rw [t8, e8, p9]
          exact alookup_ainsert_self _ _ _
        · rw [t9, e9, p10]
          exact alookup_ainsert_self _ _ _
        · intro i pv hi hrv
          rw [t10, e10]
          exact storePit_writes _ _ _ _ _ i pv hi hrv hpit
        · intro f hf q hqf
          obtain ⟨f2, v2, hf2m, hq2, hm, hl⟩ :=
            (storeQuantiles_writes indices row (rowKey st c)
              (get_quantile_fields header) st4 st5 hq).2 f hf q hqf
          exact ⟨f2, v2, hf2m, hq2, hm, by rw [t11]; exact hl⟩
        · intro f hf t hqf
          obtain ⟨f2, v2, hf2m, hq2, hm, hl⟩ :=
            (storeThresholds_writes indices row (rowKey st c)
              (get_threshold_fields header) st5 st2 h).2 f hf t hqf
          exact ⟨f2, v2, hf2m, hq2, hm, hl⟩
        · rw [t7, e7, p8]
          exact rowSt2_warnings st c

/-- Witness for C10: the first row stored obs 5, pit 0.5, cdf 0.8 at
threshold 7 and x 4 at quantile 40 under the key; processing the second
row — same resolved key — replaces them with obs 6, pit 0.6, cdf 0.9 and
x 7, stores fcst 9, and leaves the warning count at zero, as both the
end-to-end parse of the full file and the theorem instance show. -/
theorem sparse_overwrite_witness :
    (processRow c10st1 c10header c10indices c10row2).toOption.isSome = true ∧
    alookup c10st1.obs (rowKey c10st1 c10c) = some (some 5) ∧
    alookup c10st1.pit (rowKey c10st1 c10c) = some (some (1/2)) ∧
    alookup c10st1.x ((rowKey c10st1 c10c).withLevel 40) = some (some 4) ∧
    alookup c10st1.cdf ((rowKey c10st1 c10c).withLevel 7) = some (some (4/5)) ∧
    warnCond c10st1 c10c = false ∧
    (parseOut c10linesFull).map (fun st =>
      (alookup st.obs (rowKey c10st1 c10c), alookup st.fcst (rowKey c10st1 c10c),
       alookup st.pit (rowKey c10st1 c10c),
       alookup st.x ((rowKey c10st1 c10c).withLevel 40),
       alookup st.cdf ((rowKey c10st1 c10c).withLevel 7),
       st.conflictWarnings)) =
      some (some (some 6), some (some 9), some (some (3/5)), some (some 7),
        some (some (9/10)), 0) ∧
    optAll (processRow c10st1 c10header c10indices c10row2).toOption (fun st2 =>
      alookup st2.obs (rowKey c10st1 c10c) = some (some 6) ∧
      alookup st2.fcst (rowKey c10st1 c10c) = some (some 9) ∧
      (∀ (i : ℕ) (pv : Val), alookup c10indices "pit" = some i →
        readNum c10row2 i = .ok pv →
        alookup st2.pit (rowKey c10st1 c10c) = some pv) ∧
      (∀ f ∈ get_quantile_fields c10header, ∀ q : ℚ, pfloat (f.drop 1) = some q →
        ∃ f2 v, f2 ∈ get_quantile_fields c10header ∧ pfloat (f2.drop 1) = some q ∧
          mandCol c10indices c10row2 f2 = .ok v ∧
          alookup st2.x ((rowKey c10st1 c10c).withLevel q) = some v) ∧
      (∀ f ∈ get_threshold_fields c10header, ∀ t : ℚ, pfloat (f.drop 1) = some t →
        ∃ f2 v, f2 ∈ get_threshold_fields c10header ∧ pfloat (f2.drop 1) = some t ∧
          mandCol c10indices c10row2 f2 = .ok v ∧
          alookup st2.cdf ((rowKey c10st1 c10c).withLevel t) = some v) ∧
      st2.conflictWarnings = c10st1.conflictWarnings +
        (if warnCond c10st1 c10c = true then 1 else 0)) :=
  ⟨by with_unfolding_all rfl, by with_unfolding_all rfl, by with_unfolding_all rfl,
   by with_unfolding_all rfl, by with_unfolding_all rfl, by with_unfolding_all rfl,
   by with_unfolding_all rfl,
   sparse_overwrite c10st1 c10header c10indices c10row2 c10c (some 6) (some 9)
     (by with_unfolding_all rfl) (by with_unfolding_all rfl)
     (by with_unfolding_all rfl)⟩

/-! ## C4: dense-assembly shapes and nan filling -/

theorem build3_shape (dict : List (SKey × Val)) (ds os : List Val)
    (ls : List Location) :
    (build3 dict ds os ls).length = ds.length ∧
    ∀ p ∈ build3 dict ds os ls, p.length = os.length ∧
      ∀ r ∈ p, r.length = ls.length := by
  refine ⟨by simp [build3], ?_⟩
  intro p hp
  unfold build3 at hp
  obtain ⟨date, _, rfl⟩ := List.mem_map.mp hp
  refine ⟨by simp, ?_⟩
  intro r hr
  obtain ⟨off, _, rfl⟩ := List.mem_map.mp hr
  simp

theorem build4_shape (dict : List (QKey × Val)) (ds os : List Val)
    (ls : List Location) (levels : List ℚ) :
    (build4 dict ds os ls levels).length = ds.length ∧
    ∀ p ∈ build4 dict ds os ls levels, p.length = os.length ∧
      ∀ r ∈ p, r.length = ls.length ∧ ∀ r2 ∈ r, r2.length = levels.length := by
  refine ⟨by simp [build4], ?_⟩
  intro p hp
  unfold build4 at hp
  obtain ⟨date, _, rfl⟩ := List.mem_map.mp hp
  refine ⟨by simp, ?_⟩
  intro r hr
  obtain ⟨off, _, rfl⟩ := List.mem_map.mp hr
  refine ⟨by simp, ?_⟩
  intro r2 hr2
  obtain ⟨loc, _, rfl⟩ := List.mem_map.mp hr2
  simp

theorem build3_get (dict : List (SKey × Val)) (ds os : List Val)
    (ls : List Location) (i j k : ℕ) (date off : Val) (loc : Location)
    (hd : ds[i]? = some date) (ho : os[j]? = some off)
    (hl : ls[k]? = some loc) :
    (((build3 dict ds os ls)[i]?.bind (fun p => p[j]?)).bind (fun r => r[k]?)) =
      some ((alookup dict (cellKey date off loc)).join) := by
  unfold build3
  rw [List.getElem?_map, hd]
  simp only [Option.map_some', Option.some_bind]
  rw [List.getElem?_map, ho]
  simp only [Option.map_some', Option.some_bind]
  rw [List.getElem?_map, hl]
  simp

theorem build4_get (dict : List (QKey × Val)) (ds os : List Val)
    (ls : List Location) (levels : List ℚ) (i j k m : ℕ) (date off : Val)
    (loc : Location) (lev : ℚ)
    (hd : ds[i]? = some date) (ho : os[j]? = some off)
    (hl : ls[k]? = some loc) (hm : levels[m]? = some lev) :
    ((((build4 dict ds os ls levels)[i]?.bind (fun p => p[j]?)).bind
      (fun r => r[k]?)).bind (fun r2 => r2[m]?)) =
      some ((alookup dict ((cellKey date off loc).withLevel lev)).join) := by
  unfold build4
  rw [List.getElem?_map, hd]
  simp only [Option.map_some', Option.some_bind]
  rw [List.getElem?_map, ho]
  simp only [Option.map_some', Option.some_bind]
  rw [List.getElem?_map, hl]
  simp only [Option.map_some', Option.some_bind]
  rw [List.getElem?_map, hm]
  simp

/-- C4 (amended): for any freeze enumerations of the accumulated sets, the
dense arrays have exactly the extents (Ndates, Noffsets, Nlocations) and
(Ndates, Noffsets, Nlocations, Nlevels), each extent equal to the length
of the corresponding coordinate sequence (= the number of accumulated set
elements); and every cell whose coordinate key (date, offset, lat, lon,
elev[, level]) is absent from the corresponding sparse table holds the nan
sentinel.  Cells are keyed by coordinates, not by location identity, so
two locations with identical lat/lon/elev share cells — which is exactly
what fails the claim's identity-based reading (see the counterexample). -/
theorem dense_assembly_shapes (lines : List Line) (ds os : List Val)
    (ls : List Location) (qs ts : List ℚ)
    (h : enumsOk lines ds os ls qs ts = true) :
    optAll (parseOut lines) (fun st =>
      optAll (loadSnap lines ds os ls qs ts) (fun snap =>
        ds.length = st.dates.length ∧ os.length = st.offsets.length ∧
        ls.length = st.locations.length ∧ qs.length = st.quantiles.length ∧
        ts.length = st.thresholds.length ∧
        snap.obs.length = ds.length ∧
        (∀ p ∈ snap.obs, p.length = os.length ∧ ∀ r ∈ p, r.length = ls.length) ∧
        snap.deterministic.length = ds.length ∧
        (∀ p ∈ snap.deterministic, p.length = os.length ∧
          ∀ r ∈ p, r.length = ls.length) ∧
        snap.threshold_scores.length = ds.length ∧
        (∀ p ∈ snap.threshold_scores, p.length = os.length ∧
          ∀ r ∈ p, r.length = ls.length ∧ ∀ r2 ∈ r, r2.length = ts.length) ∧
        snap.quantile_scores.length = ds.length ∧
        (∀ p ∈ snap.quantile_scores, p.length = os.length ∧
          ∀ r ∈ p, r.length = ls.length ∧ ∀ r2 ∈ r, r2.length = qs.length) ∧
        (∀ (i j k : ℕ) (date off : Val) (loc : Location),
          ds[i]? = some date → os[j]? = some off → ls[k]? = some loc →
          (alookup st.obs (cellKey date off loc) = none →
            ((snap.obs[i]?.bind (fun p => p[j]?)).bind (fun r => r[k]?)) =
              some none) ∧
          (alookup st.fcst (cellKey date off loc) = none →
            ((snap.deterministic[i]?.bind (fun p => p[j]?)).bind
              (fun r => r[k]?)) = some none)) ∧
        (∀ (i j k m : ℕ) (date off : Val) (loc : Location) (lev : ℚ),
          ds[i]? = some date → os[j]? = some off → ls[k]? = some loc →
          ts[m]? = some lev →
          alookup st.cdf ((cellKey date off loc).withLevel lev) = none →
          (((snap.threshold_scores[i]?.bind (fun p => p[j]?)).bind
            (fun r => r[k]?)).bind (fun r2 => r2[m]?)) = some none) ∧
        (∀ (i j k m : ℕ) (date off : Val) (loc : Location) (lev : ℚ),
          ds[i]? = some date → os[j]? = some off → ls[k]? = some loc →
          qs[m]? = some lev →
          alookup st.x ((cellKey date off loc).withLevel lev) = none →
          (((snap.quantile_scores[i]?.bind (fun p => p[j]?)).bind
            (fun r => r[k]?)).bind (fun r2 => r2[m]?)) = some none))) := by
  intro st hst snap hsnap
  have hsnap2 : snap = assemble st ds os ls qs ts := by
    unfold loadSnap at hsnap
    rw [hst] at hsnap
    simpa using hsnap.symm
  subst hsnap2
  unfold enumsOk at h
  rw [hst] at h
  simp only [Bool.and_eq_true, decide_eq_true_eq] at h
  obtain ⟨⟨⟨⟨hd, ho⟩, hl⟩, hq⟩, ht⟩ := h
  obtain ⟨o3l, o3m⟩ := build3_shape st.obs ds os ls
  obtain ⟨f3l, f3m⟩ := build3_shape st.fcst ds os ls
  obtain ⟨t4l, t4m⟩ := build4_shape st.cdf ds os ls ts
  obtain ⟨x4l, x4m⟩ := build4_shape st.x ds os ls qs
  refine ⟨hd.length_eq.symm, ho.length_eq.symm, hl.length_eq.symm,
    hq.length_eq.symm, ht.length_eq.symm, o3l, o3m, f3l, f3m, t4l, t4m, x4l, x4m,
    ?_, ?_, ?_⟩
  · intro i j k date off loc hdi hoj hlk
    constructor
    · intro hnone
      rw [show (assemble st ds os ls qs ts).obs = build3 st.obs ds os ls from rfl]
      rw [build3_get st.obs ds os ls i j k date off loc hdi hoj hlk, hnone]
      rfl
    · intro hnone
      rw [show (assemble st ds os ls qs ts).deterministic =
        build3 st.fcst ds os ls from rfl]
      rw [build3_get st.fcst ds os ls i j k date off loc hdi hoj hlk, hnone]
      rfl
  · intro i j k m date off loc lev hdi hoj hlk hm hnone
    rw [show (assemble st ds os ls qs ts).threshold_scores =
      build4 st.cdf ds os ls ts from rfl]
    rw [build4_get st.cdf ds os ls ts i j k m date off loc lev hdi hoj hlk hm, hnone]
    rfl
  · intro i j k m date off loc lev hdi hoj hlk hm hnone
    rw [show (assemble st ds os ls qs ts).quantile_scores =
      build4 st.x ds os ls qs from rfl]
    rw [build4_get st.x ds os ls qs i j k m date off loc lev hdi hoj hlk hm, hnone]
    rfl

/-- Witness for C4's amended theorem, on a concrete two-row file with two
dates, one offset and two locations: the arrays take the extents 2, 1, 2
(and trailing extent 0 for the score arrays). -/
theorem dense_assembly_shapes_witness :
    (parseOut c4lines).isSome = true ∧
    enumsOk c4lines [some 1, some 2] [some 0] [c4locA, c4locB] [] [] = true ∧
    optAll (parseOut c4lines) (fun st =>
      optAll (loadSnap c4lines [some 1, some 2] [some 0] [c4locA, c4locB] [] [])
        (fun snap =>
          ([some 1, some 2] : List Val).length = st.dates.length ∧
          snap.obs.length = ([some 1, some 2] : List Val).length ∧
          (∀ p ∈ snap.obs, p.length = ([some 0] : List Val).length ∧
            ∀ r ∈ p, r.length = ([c4locA, c4locB] : List Location).length) ∧
          snap.threshold_scores.length = ([some 1, some 2] : List Val).length)) := by
  refine ⟨by with_unfolding_all rfl, by with_unfolding_all rfl, ?_⟩
  intro st hst snap hsnap
  obtain ⟨a1, _, _, _, _, a6, a7, _, _, a10, _⟩ :=
    dense_assembly_shapes c4lines [some 1, some 2] [some 0] [c4locA, c4locB] [] []
      (by with_unfolding_all rfl) st hst snap hsnap
  exact ⟨a1, a6, a7, a10⟩

/-- Counterexample for C4: the two locations (id 1 and id 2) share
lat/lon/elev (1, 2, 3).  No data row of the file carries date 1 together
with id 2, yet the snapshot cell obs[date 1][offset 0][location id 2]
holds 5 — the id-1 row's value — rather than the nan sentinel: the fill
loop keys cells by coordinates, so the two locations alias. -/
theorem dense_assembly_alias :
    enumsOk c4lines [some 1, some 2] [some 0] [c4locA, c4locB] [] [] = true ∧
    List.all c4lines (fun l =>
      match l with
      | Line.data toks => decide (toks[2]? = some "2" → toks[0]? = some "2")
      | Line.comment _ => true) = true ∧
    (loadSnap c4lines [some 1, some 2] [some 0] [c4locA, c4locB] [] []).map
      Snapshot.obs = some [[[some 5, some 5]], [[some 7, some 7]]] ∧
    (some (5 : ℚ) : Val) ≠ none := by
  refine ⟨by with_unfolding_all rfl, by rfl, by with_unfolding_all rfl, by simp⟩

end Verif


